import Mathlib

/-!
Shallow embedding of the nrvna-ai filesystem-backed job scheduler.

The workspace directory skeleton is modelled as five association lists
(one per lifecycle location) from job id to the contents of the job
directory.  Directory renames between locations are modelled as moving
an association-list entry; a rename fails when the source entry is
missing or the destination name is already taken (a directory rename
onto an existing non-empty directory fails on POSIX).  File reads and
writes inside a job directory are modelled as reads and updates of the
corresponding field of `JobDir`.
-/

namespace Nrvna

/-- Contents of one job directory.  Each field models one file that the
system reads or writes inside the directory: `some s` means the file
exists with content `s`, `none` means it is absent.  `images` models the
filenames under `images/`. -/
structure JobDir where
  prompt : Option String
  typeFile : Option String
  resultTmp : Option String
  resultFile : Option String
  errorFile : Option String
  images : List String
deriving Repr, DecidableEq

/-- One workspace location: directory children indexed by job id. -/
abbrev Dir := List (String × JobDir)

/-- The workspace skeleton: input/writing, input/ready, processing,
output and failed, as created by `Work::createWorkspace` and
`Server::createWorkspace`. -/
structure WS where
  writing : Dir
  ready : Dir
  processing : Dir
  output : Dir
  failed : Dir
deriving Repr, DecidableEq

/-- Remove the entry named `id` from a location (models the source side
of a successful directory rename, or `remove_all`). -/
def removeEntry (d : Dir) (id : String) : Dir :=
  d.filter (fun p => p.1 != id)

/-- Replace the directory contents stored under `id` (models in-place
file writes inside an existing job directory). -/
def setEntry (d : Dir) (id : String) (jd : JobDir) : Dir :=
  d.map (fun p => cond (p.1 == id) (p.1, jd) p)

/-- Job status as reported by the Reader (`Status` in types.hpp). -/
inductive Status where
  | Queued
  | Running
  | Done
  | Failed
  | Missing
deriving Repr, DecidableEq

/-- Result of `Processor::process` (processor.hpp). -/
inductive ProcessResult where
  | Success
  | Failed
  | NotFound
  | SystemError
deriving Repr, DecidableEq

/-- Outcome of one inference call of the backend.  `ok` and `err` model
the two sides of `RunResult` (runner.hpp); `exn` models the backend
throwing a C++ exception out of `Runner::run`. -/
inductive RunOutcome where
  | ok (output : String)
  | err (msg : String)
  | exn (msg : String)
deriving Repr, DecidableEq

/-- The inference backend interface consumed by the Processor
(runner.hpp): `runText` is `Runner::run(prompt)`, `runVision` is
`Runner::run(prompt, imagePaths)`, `embedText` is `Runner::embed`. -/
structure Runner where
  runText : String → RunOutcome
  runVision : String → List String → RunOutcome
  embedText : String → RunOutcome

/-- What `Processor::getRunnerForWorker` finds for a worker id in the
`runners_` map: no map entry at all (it then throws), an entry holding a
null `unique_ptr`, or a live runner. -/
inductive RunnerSlot where
  | absent
  | nullRunner
  | live (r : Runner)

/-- Observable outcome of one `process` call.  `ret` is a normal return
with a `ProcessResult` and the resulting workspace.  `terminated` models
`std::terminate`: `process` is `noexcept`, so an exception that reaches
its frame aborts the program instead of returning. -/
inductive ProcOutcome where
  | ret (result : ProcessResult) (ws : WS)
  | terminated
deriving Repr, DecidableEq

/-- Job record returned by the Reader (`Job` in flow.hpp); the
wall-clock timestamp field is not modelled. -/
structure Job where
  id : String
  status : Status
  content : String
deriving Repr, DecidableEq

/-- Submission error kinds (`SubmissionError` in work.hpp). -/
inductive SubmissionError where
  | None
  | IoError
  | InvalidSize
  | InvalidContent
  | WorkspaceError
deriving Repr, DecidableEq

/-- Result of `Work::submit` (`SubmitResult` in work.hpp). -/
structure SubmitResult where
  ok : Bool
  id : String
  error : SubmissionError
  message : String
deriving Repr, DecidableEq

/-- Job type tag (`JobType` in work.hpp). -/
inductive JobType where
  | Text
  | Embed
  | Vision
deriving Repr, DecidableEq

/-! ## Submitter (`Work`, part_003 of the sources) -/

/-- Embeds `Work::isValidPrompt`: non-empty and at most `maxBytes`
bytes (the C++ `std::string::size()` counts bytes, hence
`utf8ByteSize`).  The default of `maxBytes_` is 10 MB. -/
def Work.isValidPrompt (maxBytes : Nat) (prompt : String) : Bool :=
  prompt != "" && decide (prompt.utf8ByteSize ≤ maxBytes)

/-- Default of the `maxBytes_` member of `Work` (work.hpp): 10 MB. -/
def Work.defaultMaxBytes : Nat := 10000000

/-- Embeds the typed overload `Work::submit(prompt, type)`.  The
generated id (`<microseconds>_<pid>_<counter>`) is supplied by the
caller as `fresh`.  Directory creation and the `prompt.txt` and
`type.txt` writes are modelled as pure record construction in
`input/writing`; `atomicPublish` renames the directory into
`input/ready` and fails when `ready/<id>` already exists, after which
`cleanupFailedJob` removes the writing directory again, leaving the
workspace unchanged. -/
def Work.submit (maxBytes : Nat) (fresh : String) (jt : JobType) (ws : WS)
    (prompt : String) : SubmitResult × WS :=
  if Work.isValidPrompt maxBytes prompt = false then
    if prompt = "" then
      ({ ok := false, id := "", error := SubmissionError.InvalidContent,
         message := "Prompt is empty" }, ws)
    else
      ({ ok := false, id := "", error := SubmissionError.InvalidSize,
         message := "Prompt exceeds maximum size limit (" ++ toString maxBytes ++ " bytes)" }, ws)
  else
    let dir : JobDir :=
      { prompt := some prompt,
        typeFile := match jt with
          | JobType.Text => none
          | JobType.Embed => some "embed"
          | JobType.Vision => some "vision",
        resultTmp := none, resultFile := none, errorFile := none, images := [] }
    if (ws.ready.lookup fresh).isSome then
      ({ ok := false, id := "", error := SubmissionError.IoError,
         message := "Failed to publish job" }, ws)
    else
      ({ ok := true, id := fresh, error := SubmissionError.None, message := "" },
       { ws with ready := ws.ready ++ [(fresh, dir)] })

/-! ## Scanner (scanner.cpp) -/

/-- Embeds `Scanner::isValidJobDirectory`: the directory must contain a
regular file `prompt.txt` (`prompt = some p`) whose size is positive
(`p` non-empty). -/
def Scanner.isValidJobDirectory (d : JobDir) : Bool :=
  match d.prompt with
  | none => false
  | some p => p != ""

/-- Embeds `Scanner::scan`: iterate the children of `input/ready`
(every modelled entry is a directory), keep those with a non-empty
extracted id that pass `isValidJobDirectory`, and sort the ids
(`std::sort`, lexicographic on the id strings). -/
def Scanner.scan (ws : WS) : List String :=
  List.insertionSort (fun a b => a ≤ b)
    ((ws.ready.filter (fun e => e.1 != "" && Scanner.isValidJobDirectory e.2)).map Prod.fst)

/-! ## Dispatcher (`Pool`, second document of part_004) -/

/-- Pool state: the `running_` and `shutdown_` flags and the FIFO
`jobQueue_`. -/
structure Pool where
  running : Bool
  shutdown : Bool
  jobQueue : List String
deriving Repr, DecidableEq

/-- Embeds `Pool::submit`: when the pool is not running or shutdown is
signaled the id is dropped (the C++ method returns `void`, `noexcept`,
so no error reaches the caller); otherwise the id is pushed at the back
of the queue. -/
def Pool.submit (p : Pool) (id : String) : Pool :=
  if !p.running || p.shutdown then p
  else { p with jobQueue := p.jobQueue ++ [id] }

/-- Models `n` iterations of the worker-loop dequeue step
(`jobQueue_.front()` then `pop()`): the list of job ids handed to
workers, in order. -/
def Pool.drain (p : Pool) : Nat → List String
  | 0 => []
  | n + 1 =>
    match p.jobQueue with
    | [] => []
    | j :: rest => j :: Pool.drain { p with jobQueue := rest } n

/-! ## Processor (processor.cpp) -/

/-- Embeds `Processor::moveReadyToProcessing`: attempt the atomic rename
of `input/ready/<id>` to `processing/<id>`.  It fails (returning
`false` with the workspace untouched) when the source is missing or the
destination name is already taken; otherwise the entry moves. -/
def Processor.moveReadyToProcessing (ws : WS) (jobId : String) : Bool × WS :=
  match ws.ready.lookup jobId with
  | none => (false, ws)
  | some d =>
    if (ws.processing.lookup jobId).isSome then (false, ws)
    else
      (true, { ws with ready := removeEntry ws.ready jobId,
                       processing := ws.processing ++ [(jobId, d)] })

/-- Embeds `Processor::readPrompt`: read `processing/<id>/prompt.txt`,
returning `""` when the directory or the file is missing. -/
def Processor.readPrompt (ws : WS) (jobId : String) : String :=
  match ws.processing.lookup jobId with
  | none => ""
  | some d =>
    match d.prompt with
    | none => ""
    | some p => p

/-- Embeds `Processor::finalizeSuccess`: write `result.txt.tmp`, rename
it to `result.txt` (both inside `processing/<id>`), then rename the
whole directory to `output/<id>`.  The write fails when the directory is
missing; the final rename fails when `output/<id>` already exists, in
which case `result.txt` has been written but the directory stays in
`processing/` and `false` is returned. -/
def Processor.finalizeSuccess (ws : WS) (jobId : String) (result : String) : Bool × WS :=
  match ws.processing.lookup jobId with
  | none => (false, ws)
  | some d =>
    let d2 : JobDir := { d with resultTmp := none, resultFile := some result }
    if (ws.output.lookup jobId).isSome then
      (false, { ws with processing := setEntry ws.processing jobId d2 })
    else
      (true, { ws with processing := removeEntry ws.processing jobId,
                       output := ws.output ++ [(jobId, d2)] })

/-- Embeds `Processor::finalizeFailure`: best-effort write of
`error.txt`, then rename `processing/<id>` to `failed/<id>`.  The rename
fails when the directory is missing or `failed/<id>` already exists; the
error file write is kept in that case. -/
def Processor.finalizeFailure (ws : WS) (jobId : String) (err : String) : Bool × WS :=
  match ws.processing.lookup jobId with
  | none => (false, ws)
  | some d =>
    let d2 : JobDir := { d with errorFile := some err }
    if (ws.failed.lookup jobId).isSome then
      (false, { ws with processing := setEntry ws.processing jobId d2 })
    else
      (true, { ws with processing := removeEntry ws.processing jobId,
                       failed := ws.failed ++ [(jobId, d2)] })

/-- Embeds the body of `Processor::process` after the runner lookup:
claim the job, read the prompt, run the text path of the backend,
finalize.  `runnerOpt = none` models the null-`unique_ptr` branch
(`if (!runner)`).  The `RunOutcome.exn` case models the `catch` blocks
at the end of `process`, which call `finalizeFailure` and return
`SystemError`. -/
def Processor.processBody (runnerOpt : Option Runner) (jobId : String) (ws : WS) : ProcOutcome :=
  match Processor.moveReadyToProcessing ws jobId with
  | (false, _) => ProcOutcome.ret ProcessResult.NotFound ws
  | (true, ws1) =>
    let prompt := Processor.readPrompt ws1 jobId
    if prompt = "" then
      ProcOutcome.ret ProcessResult.Failed
        (Processor.finalizeFailure ws1 jobId "Failed to read prompt file").2
    else
      match runnerOpt with
      | none =>
        ProcOutcome.ret ProcessResult.SystemError
          (Processor.finalizeFailure ws1 jobId "No runner available").2
      | some r =>
        match r.runText prompt with
        | RunOutcome.ok out =>
          match Processor.finalizeSuccess ws1 jobId out with
          | (true, ws2) => ProcOutcome.ret ProcessResult.Success ws2
          | (false, ws2) => ProcOutcome.ret ProcessResult.SystemError ws2
        | RunOutcome.err e =>
          ProcOutcome.ret ProcessResult.Failed (Processor.finalizeFailure ws1 jobId e).2
        | RunOutcome.exn e =>
          ProcOutcome.ret ProcessResult.SystemError
            (Processor.finalizeFailure ws1 jobId ("Internal processing error: " ++ e)).2

/-- Dispatch on what the runner map holds for this worker.  The lookup
(`Processor::getRunnerForWorker`) happens at the top of `process`,
before its `try` block; when the map has no entry it throws
`std::runtime_error`, and since `process` is declared `noexcept` the
exception cannot leave the frame: the program terminates. -/
def Processor.processSlot (slot : RunnerSlot) (jobId : String) (ws : WS) : ProcOutcome :=
  match slot with
  | RunnerSlot.absent => ProcOutcome.terminated
  | RunnerSlot.nullRunner => Processor.processBody none jobId ws
  | RunnerSlot.live r => Processor.processBody (some r) jobId ws

/-- What `runners_.find(workerId)` yields: no entry, an entry holding a
null pointer, or a live runner. -/
def Processor.getRunnerSlot (runners : List (Nat × Option Runner)) (workerId : Nat) : RunnerSlot :=
  match runners.lookup workerId with
  | none => RunnerSlot.absent
  | some none => RunnerSlot.nullRunner
  | some (some r) => RunnerSlot.live r

/-- Embeds `Processor::process(jobId, workerId)` with the `runners_`
map made explicit. -/
def Processor.process (runners : List (Nat × Option Runner)) (jobId : String)
    (workerId : Nat) (ws : WS) : ProcOutcome :=
  Processor.processSlot (Processor.getRunnerSlot runners workerId) jobId ws

/-! ## Reader (`Flow`, first document of part_004) -/

/-- Embeds `Flow::status`: probe `output/`, `failed/`, `processing/`,
`input/ready/` in that order, first hit wins, otherwise `Missing`. -/
def Flow.status (ws : WS) (id : String) : Status :=
  if (ws.output.lookup id).isSome then Status.Done
  else if (ws.failed.lookup id).isSome then Status.Failed
  else if (ws.processing.lookup id).isSome then Status.Running
  else if (ws.ready.lookup id).isSome then Status.Queued
  else Status.Missing

/-- Models the C++ read loop `while (std::getline(file, line))
content += line + "\n"` character by character: every input character
is copied through (the newline terminators included), and a final line
that is not terminated by a newline still gets the "\n" that the loop
appends after every extracted line. -/
def getlineContent : List Char → List Char
  | [] => []
  | c :: cs =>
    if c = '\n' then '\n' :: getlineContent cs
    else
      c :: (match cs with
        | [] => ['\n']
        | c2 :: cs2 => getlineContent (c2 :: cs2))

/-- Embeds `Flow::readResultContent`: open `output/<id>/result.txt` and
read it with the getline loop; a failed open yields `""`. -/
def Flow.readResultContent (ws : WS) (id : String) : String :=
  match ws.output.lookup id with
  | none => ""
  | some d =>
    match d.resultFile with
    | none => ""
    | some content => String.mk (getlineContent content.data)

/-- Embeds `Flow::get`: status first; for `Done` require `result.txt`
and read it via `readResultContent`; for `Failed` read `error.txt` with
the same getline loop when present, else the empty string; any other
status yields the job with empty content. -/
def Flow.get (ws : WS) (id : String) : Option Job :=
  match Flow.status ws id with
  | Status.Done =>
    match ws.output.lookup id with
    | none => none
    | some d =>
      match d.resultFile with
      | none => none
      | some _ => some { id := id, status := Status.Done, content := Flow.readResultContent ws id }
  | Status.Failed =>
    let content :=
      match ws.failed.lookup id with
      | none => ""
      | some d =>
        match d.errorFile with
        | none => ""
        | some e => String.mk (getlineContent e.data)
    some { id := id, status := Status.Failed, content := content }
  | st => some { id := id, status := st, content := "" }

/-! ## Recovery (`Server::recoverOrphanedJobs`) -/

/-- Modelled from the spec: `Server::recoverOrphanedJobs` is declared in
server.hpp but neither its definition nor its call site appears among
the provided sources (the `Server::start` in part_006 is an earlier
variant that predates recovery).  Spec section 4.6: at daemon startup,
before the Scanner begins, every child directory of `processing/` is
renamed back to `input/ready/`; if that rename fails (a name collision
in `ready/`), the directory is moved to `failed/` with a best-effort
`error.txt` noting the orphan recovery failure.  This function is one
step of that iteration. -/
def Server.recoverStep (ws : WS) (e : String × JobDir) : WS :=
  if (ws.ready.lookup e.1).isNone then
    { ws with ready := ws.ready ++ [e] }
  else
    { ws with failed := ws.failed ++
        [(e.1, { e.2 with errorFile := some "orphan recovery failed" })] }

/-- Modelled from the spec: the full startup recovery pass, run once,
single-threaded, before the Scanner begins (spec section 4.6).  Each
child of `processing/` is removed from `processing/` and re-queued via
`recoverStep`. -/
def Server.recoverOrphanedJobs (ws : WS) : WS :=
  ws.processing.foldl Server.recoverStep { ws with processing := [] }

/-! ## Claim races -/

/-- A serialization of `n` concurrent claim attempts for the same job
id: by rename atomicity each attempt is a single atomic step, so any
concurrent execution of the claim renames is equivalent to some
sequential order of `moveReadyToProcessing` calls.  Returns the success
flag of each caller in order, and the final workspace. -/
def claimResults : WS → Nat → String → List Bool × WS
  | ws, 0, _ => ([], ws)
  | ws, n + 1, id =>
    match Processor.moveReadyToProcessing ws id with
    | (b, ws1) =>
      match claimResults ws1 n id with
      | (bs, ws2) => (b :: bs, ws2)

/-! ## Association-list helper lemmas -/

lemma lookup_append_left {l1 l2 : Dir} {id : String} {d : JobDir}
    (h : l1.lookup id = some d) : (l1 ++ l2).lookup id = some d := by
  induction l1 with
  | nil => exact Option.noConfusion h
  | cons e t ih =>
    rcases e with ⟨k, v⟩
    rw [List.cons_append]
    cases hk : (id == k) with
    | false =>
      simp only [List.lookup, hk] at h ⊢
      exact ih h
    | true =>
      simp only [List.lookup, hk] at h ⊢
      exact h

lemma lookup_append_none {l1 : Dir} (l2 : Dir) {id : String}
    (h : l1.lookup id = none) : (l1 ++ l2).lookup id = l2.lookup id := by
  induction l1 with
  | nil => rfl
  | cons e t ih =>
    rcases e with ⟨k, v⟩
    rw [List.cons_append]
    cases hk : (id == k) with
    | false =>
      simp only [List.lookup, hk] at h ⊢
      exact ih h
    | true =>
      simp only [List.lookup, hk] at h
      exact Option.noConfusion h

lemma lookup_removeEntry (l : Dir) (id : String) :
    (removeEntry l id).lookup id = none := by
  induction l with
  | nil => rfl
  | cons e t ih =>
    rcases e with ⟨k, v⟩
    simp only [removeEntry] at ih ⊢
    by_cases hk : k = id
    · have hb : ((k, v).1 != id) = false := by
        simp [hk]
      rw [List.filter_cons, hb]
      exact ih
    · have hb : ((k, v).1 != id) = true := bne_iff_ne.mpr hk
      rw [List.filter_cons, hb]
      have hba : (id == k) = false := beq_false_of_ne (fun hcontra => hk hcontra.symm)
      simp only [if_true]
      simp only [List.lookup, hba]
      exact ih

lemma lookup_setEntry_some {l : Dir} {id : String} {d : JobDir} (jd : JobDir)
    (h : l.lookup id = some d) : (setEntry l id jd).lookup id = some jd := by
  induction l with
  | nil => exact Option.noConfusion h
  | cons e t ih =>
    rcases e with ⟨k, v⟩
    cases hk : (id == k) with
    | false =>
      simp only [List.lookup, hk] at h
      have hkid : (k == id) = false :=
        beq_false_of_ne (fun hcontra => by
          exact absurd (beq_iff_eq.mpr hcontra.symm) (by simp [hk]))
      simp only [setEntry, List.map_cons, hkid, cond_false, List.lookup, hk]
      exact ih h
    | true =>
      have hkid : (k == id) = true := by
        have hke := beq_iff_eq.mp hk
        exact beq_iff_eq.mpr hke.symm
      simp only [setEntry, List.map_cons, hkid, cond_true, List.lookup, hk]

lemma lookup_singleton_self (id : String) (d : JobDir) :
    List.lookup id [(id, d)] = some d := by
  simp [List.lookup]

/-! ## Claim-race lemmas -/

lemma claim_fail_of_none {ws : WS} {id : String} (h : ws.ready.lookup id = none) :
    Processor.moveReadyToProcessing ws id = (false, ws) := by
  simp [Processor.moveReadyToProcessing, h]

lemma claim_fail_state {ws ws1 : WS} {id : String}
    (h : Processor.moveReadyToProcessing ws id = (false, ws1)) : ws1 = ws := by
  unfold Processor.moveReadyToProcessing at h
  cases hl : ws.ready.lookup id with
  | none =>
    simp only [hl] at h
    simp only [Prod.mk.injEq] at h
    exact h.2.symm
  | some d =>
    simp only [hl] at h
    by_cases hs : (ws.processing.lookup id).isSome
    · rw [if_pos hs] at h
      simp only [Prod.mk.injEq] at h
      exact h.2.symm
    · rw [if_neg hs] at h
      simp only [Prod.mk.injEq] at h
      exact Bool.noConfusion h.1

lemma claim_true_ready_none {ws ws1 : WS} {id : String}
    (h : Processor.moveReadyToProcessing ws id = (true, ws1)) :
    ws1.ready.lookup id = none := by
  unfold Processor.moveReadyToProcessing at h
  cases hl : ws.ready.lookup id with
  | none =>
    simp only [hl] at h
    simp only [Prod.mk.injEq] at h
    exact Bool.noConfusion h.1
  | some d =>
    simp only [hl] at h
    by_cases hs : (ws.processing.lookup id).isSome
    · rw [if_pos hs] at h
      simp only [Prod.mk.injEq] at h
      exact Bool.noConfusion h.1
    · rw [if_neg hs] at h
      simp only [Prod.mk.injEq] at h
      rw [← h.2]
      exact lookup_removeEntry ws.ready id

lemma claim_count_zero {ws : WS} {id : String} (h : ws.ready.lookup id = none) :
    ∀ n, ((claimResults ws n id).1.count true = 0) := by
  intro n
  induction n with
  | zero => simp [claimResults]
  | succ n ih =>
    simp [claimResults, claim_fail_of_none h, List.count_cons, ih]

/-! ## Recovery lemmas -/

lemma recoverStep_processing (ws : WS) (e : String × JobDir) :
    (Server.recoverStep ws e).processing = ws.processing := by
  unfold Server.recoverStep
  split <;> rfl

lemma recover_foldl_processing (l : List (String × JobDir)) (ws : WS) :
    (l.foldl Server.recoverStep ws).processing = ws.processing := by
  induction l generalizing ws with
  | nil => rfl
  | cons e t ih => simp [List.foldl, ih, recoverStep_processing]

lemma recoverStep_ready_keeps {ws : WS} {id : String} {d : JobDir}
    (e : String × JobDir) (h : ws.ready.lookup id = some d) :
    (Server.recoverStep ws e).ready.lookup id = some d := by
  unfold Server.recoverStep
  split
  · exact lookup_append_left h
  · exact h

lemma recover_foldl_keeps (l : List (String × JobDir)) {ws : WS} {id : String} {d : JobDir}
    (h : ws.ready.lookup id = some d) :
    (l.foldl Server.recoverStep ws).ready.lookup id = some d := by
  induction l generalizing ws with
  | nil => exact h
  | cons e t ih => exact ih (recoverStep_ready_keeps e h)

lemma recover_foldl_ready (l : List (String × JobDir)) (id : String) (d : JobDir) :
    ∀ ws : WS, (l.map Prod.fst).Nodup → (id, d) ∈ l → ws.ready.lookup id = none →
      (l.foldl Server.recoverStep ws).ready.lookup id = some d := by
  induction l with
  | nil => intro ws _ hmem _; cases hmem
  | cons e t ih =>
    intro ws hnodup hmem hnone
    rw [List.map_cons, List.nodup_cons] at hnodup
    rw [List.foldl_cons]
    rcases List.mem_cons.mp hmem with hme | hmt
    · have hme2 : e = (id, d) := hme.symm
      subst hme2
      have hcond : (ws.ready.lookup (id, d).1).isNone := by
        simp [hnone]
      have hstep : (Server.recoverStep ws (id, d)).ready.lookup id = some d := by
        unfold Server.recoverStep
        rw [if_pos hcond]
        show (ws.ready ++ [(id, d)]).lookup id = some d
        rw [lookup_append_none _ hnone]
        exact lookup_singleton_self id d
      exact recover_foldl_keeps t hstep
    · have hne : e.1 ≠ id := by
        intro hcontra
        exact hnodup.1 (hcontra ▸ (List.mem_map.mpr ⟨(id, d), hmt, rfl⟩))
      have hba : (id == e.1) = false := beq_false_of_ne (fun hcontra => hne hcontra.symm)
      have hstep : (Server.recoverStep ws e).ready.lookup id = none := by
        unfold Server.recoverStep
        split
        · show (ws.ready ++ [e]).lookup id = none
          rw [lookup_append_none _ hnone]
          rcases e with ⟨k, v⟩
          simp only [List.lookup, hba]
        · exact hnone
      exact ih (Server.recoverStep ws e) hnodup.2 hmt hstep

/-! ## Concrete states shared by witnesses and counterexamples -/

/-- A job directory holding only a non-empty prompt file. -/
def promptDir : JobDir :=
  { prompt := some "hello", typeFile := none, resultTmp := none,
    resultFile := none, errorFile := none, images := [] }

/-- The freshly created empty workspace. -/
def wsEmpty : WS :=
  { writing := [], ready := [], processing := [], output := [], failed := [] }

/-- A workspace with one orphaned job left in processing by a dead
worker (the recovery scenario of the spec). -/
def wsC1 : WS :=
  { writing := [], ready := [], processing := [("stale", promptDir)],
    output := [], failed := [] }

/-- A workspace with one queued job. -/
def wsOneReady : WS :=
  { writing := [], ready := [("q", promptDir)], processing := [],
    output := [], failed := [] }

/-- A pool that was never started (`running_ = false`), with one id in
the queue left over for illustration. -/
def poolStopped : Pool :=
  { running := false, shutdown := false, jobQueue := ["a"] }

/-! ## Claim C1 -/

/-- C1: at every daemon start, before the Scanner performs its first
scan, Recovery renames every child directory of processing back to
input/ready, so that processing is empty when scanning begins.  Stated
for workspaces whose processing children carry distinct names and do
not collide with names already present in ready; on a real filesystem
both always hold (directory names are unique, and invariant I1 keeps a
job in one location).  Recovery is modelled from the spec because only
its declaration appears among the sources. -/
theorem C1_recovery_requeues_processing (ws : WS)
    (hnodup : (ws.processing.map Prod.fst).Nodup) :
    (Server.recoverOrphanedJobs ws).processing = []
    ∧ ∀ id d, (id, d) ∈ ws.processing → ws.ready.lookup id = none →
        (Server.recoverOrphanedJobs ws).ready.lookup id = some d := by
  constructor
  · unfold Server.recoverOrphanedJobs
    rw [recover_foldl_processing]
  · intro id d hmem hnone
    unfold Server.recoverOrphanedJobs
    exact recover_foldl_ready ws.processing id d _ hnodup hmem hnone

/-- Witness for C1: a stale job placed in processing is back in ready
after recovery and processing is empty. -/
theorem C1_witness :
    (Server.recoverOrphanedJobs wsC1).processing = []
    ∧ (Server.recoverOrphanedJobs wsC1).ready.lookup "stale" = some promptDir :=
  ⟨(C1_recovery_requeues_processing wsC1 (by decide)).1,
   (C1_recovery_requeues_processing wsC1 (by decide)).2 "stale" promptDir
     (by decide) (by decide)⟩

/-! ## Claim C2 -/

/-- C2: for every job id and any set of concurrently executing workers,
at most one of the claim renames from ready to processing succeeds (the
rename is a single atomic step, so every concurrent execution is some
serialization, here `claimResults`), and a caller whose claim rename
fails returns NotFound from `process`. -/
theorem C2_at_most_one_claim (ws : WS) (id : String) (n : Nat) :
    (claimResults ws n id).1.count true ≤ 1
    ∧ ∀ (ws2 : WS) (runnerOpt : Option Runner),
        (Processor.moveReadyToProcessing ws2 id).1 = false →
        Processor.processBody runnerOpt id ws2 = ProcOutcome.ret ProcessResult.NotFound ws2 := by
  constructor
  · induction n generalizing ws with
    | zero => simp [claimResults]
    | succ n ih =>
      rcases hmv : Processor.moveReadyToProcessing ws id with ⟨b, ws1⟩
      rcases hcr : claimResults ws1 n id with ⟨bs, wsf⟩
      cases b
      · have hws : ws1 = ws := claim_fail_state hmv
        subst hws
        simp only [claimResults, hmv, hcr, List.count_cons]
        have := ih ws1
        rw [hcr] at this
        simpa using this
      · have hnone := claim_true_ready_none hmv
        have hzero := claim_count_zero hnone n
        rw [hcr] at hzero
        simp only [claimResults, hmv, hcr, List.count_cons]
        simp [hzero]
  · intro ws2 runnerOpt hfail
    rcases hmv : Processor.moveReadyToProcessing ws2 id with ⟨b, ws3⟩
    rw [hmv] at hfail
    simp only at hfail
    subst hfail
    simp only [Processor.processBody, hmv]

/-- Witness for C2: three serialized claim attempts on a workspace with
the job queued produce at most one success, and a claim attempt against
a workspace without the job makes `process` return NotFound. -/
theorem C2_witness :
    (claimResults wsOneReady 3 "q").1.count true ≤ 1
    ∧ Processor.processBody none "q" wsEmpty
        = ProcOutcome.ret ProcessResult.NotFound wsEmpty :=
  ⟨(C2_at_most_one_claim wsOneReady "q" 3).1,
   (C2_at_most_one_claim wsOneReady "q" 3).2 wsEmpty none (by decide)⟩

/-! ## Claim C4 -/

/-- C4: `Flow::status` probes output, failed, processing, input/ready
in this order, returning Done, Failed, Running or Queued for the first
location that contains the id, and Missing when none does; in
particular a job present only under input/ready is reported Queued. -/
theorem C4_status_probe_order (ws : WS) (id : String) :
    ((ws.output.lookup id).isSome → Flow.status ws id = Status.Done)
    ∧ (ws.output.lookup id = none → (ws.failed.lookup id).isSome →
        Flow.status ws id = Status.Failed)
    ∧ (ws.output.lookup id = none → ws.failed.lookup id = none →
        (ws.processing.lookup id).isSome → Flow.status ws id = Status.Running)
    ∧ (ws.output.lookup id = none → ws.failed.lookup id = none →
        ws.processing.lookup id = none → (ws.ready.lookup id).isSome →
        Flow.status ws id = Status.Queued)
    ∧ (ws.output.lookup id = none → ws.failed.lookup id = none →
        ws.processing.lookup id = none → ws.ready.lookup id = none →
        Flow.status ws id = Status.Missing) := by
  refine ⟨?_, ?_, ?_, ?_, ?_⟩
  · intro h1
    unfold Flow.status
    rw [if_pos h1]
  · intro h1 h2
    unfold Flow.status
    rw [if_neg (by rw [h1]; simp), if_pos h2]
  · intro h1 h2 h3
    unfold Flow.status
    rw [if_neg (by rw [h1]; simp), if_neg (by rw [h2]; simp), if_pos h3]
  · intro h1 h2 h3 h4
    unfold Flow.status
    rw [if_neg (by rw [h1]; simp), if_neg (by rw [h2]; simp),
        if_neg (by rw [h3]; simp), if_pos h4]
  · intro h1 h2 h3 h4
    unfold Flow.status
    rw [if_neg (by rw [h1]; simp), if_neg (by rw [h2]; simp),
        if_neg (by rw [h3]; simp), if_neg (by rw [h4]; simp)]

/-- Witness for C4: a job directory that exists only under
input/ready/<id> is reported as Queued. -/
theorem C4_witness : Flow.status wsOneReady "q" = Status.Queued :=
  (C4_status_probe_order wsOneReady "q").2.2.2.1
    (by decide) (by decide) (by decide) (by decide)

/-! ## Claim C10 -/

lemma drain_mem {j : String} : ∀ (n : Nat) (p : Pool), j ∈ Pool.drain p n → j ∈ p.jobQueue := by
  intro n
  induction n with
  | zero => intro p h; simp [Pool.drain] at h
  | succ n ih =>
    rintro ⟨r, s, q⟩ h
    cases q with
    | nil => simp [Pool.drain] at h
    | cons x rest =>
      simp only [Pool.drain] at h
      rcases List.mem_cons.mp h with hx | hmem2
      · simp [hx]
      · exact List.mem_cons_of_mem x (ih _ hmem2)

/-- C10: calling `Pool::submit` when the pool is not running (never
started, or stop or shutdown already signaled) leaves the queue
unchanged, no error is reported to the caller (the method returns void,
noexcept), and an id that was not already queued is never handed to a
worker by that pool in that state. -/
theorem C10_submit_stopped_discards (p : Pool) (id : String)
    (h : p.running = false ∨ p.shutdown = true) :
    Pool.submit p id = p
    ∧ ∀ n, id ∉ p.jobQueue → id ∉ Pool.drain (Pool.submit p id) n := by
  have hsub : Pool.submit p id = p := by
    unfold Pool.submit
    rcases h with h | h <;> simp [h]
  refine ⟨hsub, ?_⟩
  intro n hnot hmem
  rw [hsub] at hmem
  exact hnot (drain_mem n p hmem)

/-- Witness for C10: submitting to a never-started pool discards the id
and no amount of worker dequeues ever hands it out. -/
theorem C10_witness :
    Pool.submit poolStopped "b" = poolStopped
    ∧ "b" ∉ Pool.drain (Pool.submit poolStopped "b") 5 :=
  ⟨(C10_submit_stopped_discards poolStopped "b" (Or.inl rfl)).1,
   (C10_submit_stopped_discards poolStopped "b" (Or.inl rfl)).2 5 (by decide)⟩

/-! ## Claim C7 -/

/-- C7: a prompt whose byte length exceeds the configured maximum
(default 10 MB) is rejected by `Work::submit` with InvalidSize and the
workspace is untouched (the job id is only generated, and the job
directory only created, after validation passes); a prompt exactly at
the maximum is accepted. -/
theorem C7_prompt_size_boundary (maxBytes : Nat) (fresh : String) (jt : JobType)
    (ws : WS) (prompt : String) :
    (prompt.utf8ByteSize > maxBytes →
      Work.submit maxBytes fresh jt ws prompt =
        ({ ok := false, id := "", error := SubmissionError.InvalidSize,
           message := "Prompt exceeds maximum size limit (" ++ toString maxBytes ++ " bytes)" }, ws))
    ∧ (prompt ≠ "" → prompt.utf8ByteSize = maxBytes → ws.ready.lookup fresh = none →
        (Work.submit maxBytes fresh jt ws prompt).1.ok = true) := by
  constructor
  · intro hover
    have hne : prompt ≠ "" := by
      intro hcontra
      subst hcontra
      have h0 : ("" : String).utf8ByteSize = 0 := rfl
      rw [h0] at hover
      exact absurd hover (Nat.not_lt_zero maxBytes)
    have hvalid : Work.isValidPrompt maxBytes prompt = false := by
      unfold Work.isValidPrompt
      simp [Nat.not_le.mpr hover]
    simp [Work.submit, hvalid, hne]
  · intro hne hsize hlook
    have hvalid : Work.isValidPrompt maxBytes prompt = true := by
      unfold Work.isValidPrompt
      rw [Bool.and_eq_true]
      exact ⟨bne_iff_ne.mpr hne, by simp [hsize]⟩
    simp [Work.submit, hvalid, hlook]

/-- Witness for C7: with a 3-byte limit, a 4-byte prompt is rejected as
InvalidSize leaving the workspace unchanged, and a 3-byte prompt is
accepted. -/
theorem C7_witness :
    Work.submit 3 "id1" JobType.Text wsEmpty "abcd" =
      ({ ok := false, id := "", error := SubmissionError.InvalidSize,
         message := "Prompt exceeds maximum size limit (3 bytes)" }, wsEmpty)
    ∧ (Work.submit 3 "id1" JobType.Text wsEmpty "abc").1.ok = true :=
  ⟨(C7_prompt_size_boundary 3 "id1" JobType.Text wsEmpty "abcd").1 (by decide),
   (C7_prompt_size_boundary 3 "id1" JobType.Text wsEmpty "abc").2
     (by decide) (by decide) (by decide)⟩

/-! ## Claim C8 -/

lemma isValidJobDirectory_iff (d : JobDir) :
    Scanner.isValidJobDirectory d = true ↔ ∃ p, d.prompt = some p ∧ p ≠ "" := by
  cases hp : d.prompt with
  | none => simp [Scanner.isValidJobDirectory, hp]
  | some p => simp [Scanner.isValidJobDirectory, hp, bne_iff_ne]

/-- C8: `Scanner::scan` returns exactly the ids of the ready children
that contain a non-empty regular file prompt.txt, sorted
lexicographically; a child lacking prompt.txt or with a zero-byte
prompt.txt is skipped (and `scan`, a const method, deletes nothing).
Stated for workspaces whose ready children have non-empty names, which
is every real directory listing. -/
theorem C8_scan_sorted_valid (ws : WS) (hnames : ∀ e ∈ ws.ready, e.1 ≠ "") :
    (Scanner.scan ws).Sorted (fun a b => a ≤ b)
    ∧ ∀ id, (id ∈ Scanner.scan ws ↔
        ∃ d, (id, d) ∈ ws.ready ∧ ∃ p, d.prompt = some p ∧ p ≠ "") := by
  constructor
  · exact List.sorted_insertionSort _ _
  · intro id
    unfold Scanner.scan
    rw [List.Perm.mem_iff (List.perm_insertionSort _ _)]
    simp only [List.mem_map, List.mem_filter]
    constructor
    · rintro ⟨⟨k, d⟩, ⟨hmem, hpred⟩, hfst⟩
      obtain rfl : k = id := hfst
      rw [Bool.and_eq_true] at hpred
      exact ⟨d, hmem, (isValidJobDirectory_iff d).mp hpred.2⟩
    · rintro ⟨d, hmem, hvalid⟩
      refine ⟨(id, d), ⟨hmem, ?_⟩, rfl⟩
      rw [Bool.and_eq_true]
      exact ⟨bne_iff_ne.mpr (hnames (id, d) hmem), (isValidJobDirectory_iff d).mpr hvalid⟩

/-- A ready child without prompt.txt, as left by a broken submitter. -/
def garbageDir : JobDir :=
  { prompt := none, typeFile := none, resultTmp := none,
    resultFile := none, errorFile := none, images := [] }

/-- A ready listing with two valid jobs (out of order) and one
malformed child. -/
def wsC8 : WS :=
  { writing := [],
    ready := [("b", promptDir), ("a", promptDir), ("garbage", garbageDir)],
    processing := [], output := [], failed := [] }

/-- Witness for C8: the scan of a concrete listing is sorted, contains
the valid id and the malformed child is not dispatched. -/
theorem C8_witness :
    (Scanner.scan wsC8).Sorted (fun a b => a ≤ b)
    ∧ "a" ∈ Scanner.scan wsC8 :=
  ⟨(C8_scan_sorted_valid wsC8 (by decide)).1,
   ((C8_scan_sorted_valid wsC8 (by decide)).2 "a").mpr
     ⟨promptDir, by decide, "hello", by decide, by decide⟩⟩

/-! ## Claim C5 -/

lemma getlineContent_cons_cons (c c2 : Char) (cs : List Char) :
    getlineContent (c :: c2 :: cs) = c :: getlineContent (c2 :: cs) := by
  by_cases h : c = '\n'
  · subst h
    simp [getlineContent]
  · simp [getlineContent, h]

lemma getlineContent_spec : ∀ cs : List Char, cs ≠ [] →
    getlineContent cs = if cs.getLast? = some '\n' then cs else cs ++ ['\n'] := by
  intro cs
  induction cs with
  | nil => intro h; exact absurd rfl h
  | cons c t ih =>
    intro _
    cases t with
    | nil =>
      by_cases h : c = '\n'
      · subst h
        simp [getlineContent]
      · simp [getlineContent, h]
    | cons c2 t2 =>
      rw [getlineContent_cons_cons, ih (by simp), List.getLast?_cons_cons]
      split <;> simp

lemma string_mk_data (s : String) : String.mk s.data = s := by
  rcases s with ⟨d⟩
  rfl

lemma string_mk_append_newline (s : String) :
    String.mk (s.data ++ [Char.ofNat 10]) = s ++ "\n" := by
  rcases s with ⟨d⟩
  rfl

lemma flowGet_done {ws : WS} {id : String} {d2 : JobDir} {s : String}
    (hlu : ws.output.lookup id = some d2) (hrf : d2.resultFile = some s) :
    Flow.get ws id = some { id := id, status := Status.Done,
                            content := String.mk (getlineContent s.data) } := by
  have hst : Flow.status ws id = Status.Done := by
    unfold Flow.status
    rw [if_pos (by rw [hlu]; rfl)]
  simp only [Flow.get, hst, hlu, hrf, Flow.readResultContent]

/-- C5 (amended): for a claimed job whose finalize-success runs with
backend output `s`, the directory lands in output with `result.txt`
holding exactly `s`; but `Flow::get` reads `result.txt` through a
getline loop that re-appends a newline after every extracted line, so
`get(id).content` equals `s` only when `s` already ends with a newline,
and equals `s ++ "\n"` otherwise. -/
theorem C5_result_roundtrip (ws : WS) (id : String) (d : JobDir) (s : String)
    (hp : ws.processing.lookup id = some d)
    (ho : ws.output.lookup id = none) :
    (Processor.finalizeSuccess ws id s).1 = true
    ∧ ((Processor.finalizeSuccess ws id s).2).output.lookup id
        = some { d with resultTmp := none, resultFile := some s }
    ∧ (s.data ≠ [] → s.data.getLast? = some '\n' →
        Flow.get (Processor.finalizeSuccess ws id s).2 id
          = some { id := id, status := Status.Done, content := s })
    ∧ (s.data ≠ [] → s.data.getLast? ≠ some '\n' →
        Flow.get (Processor.finalizeSuccess ws id s).2 id
          = some { id := id, status := Status.Done, content := s ++ "\n" }) := by
  have hfs : Processor.finalizeSuccess ws id s =
      (true, { ws with processing := removeEntry ws.processing id,
                       output := ws.output ++
                         [(id, { d with resultTmp := none, resultFile := some s })] }) := by
    unfold Processor.finalizeSuccess
    simp only [hp]
    rw [if_neg (by rw [ho]; simp)]
  have hlu : ((Processor.finalizeSuccess ws id s).2).output.lookup id
      = some { d with resultTmp := none, resultFile := some s } := by
    rw [hfs]
    show (ws.output ++ [(id, { d with resultTmp := none, resultFile := some s })]).lookup id = _
    rw [lookup_append_none _ ho]
    exact lookup_singleton_self id _
  have hget := flowGet_done hlu rfl
  refine ⟨by rw [hfs], hlu, ?_, ?_⟩
  · intro hne hnl
    rw [hget, getlineContent_spec s.data hne, if_pos hnl, string_mk_data]
  · intro hne hnl
    rw [hget, getlineContent_spec s.data hne, if_neg hnl, string_mk_append_newline]

/-- A workspace with one claimed job being processed. -/
def wsC5 : WS :=
  { writing := [], ready := [], processing := [("j", promptDir)],
    output := [], failed := [] }

/-- C5 counterexample: the backend output "hello" is written to
result.txt byte-exact, but `Flow::get` returns "hello\n": the claimed
round-trip `get(id).content = s` fails for any backend output without a
trailing newline. -/
theorem C5_counterexample :
    ((Processor.finalizeSuccess wsC5 "j" "hello").2).output.lookup "j"
      = some { promptDir with resultTmp := none, resultFile := some "hello" }
    ∧ Flow.get (Processor.finalizeSuccess wsC5 "j" "hello").2 "j"
      = some { id := "j", status := Status.Done, content := "hello\n" }
    ∧ (("hello\n" : String) == "hello") = false := by
  refine ⟨by decide, by decide, by decide⟩

/-- Witness for C5: the amended round-trip at a concrete state, for an
output without a trailing newline. -/
theorem C5_witness :
    (Processor.finalizeSuccess wsC5 "j" "hi").1 = true
    ∧ Flow.get (Processor.finalizeSuccess wsC5 "j" "hi").2 "j"
      = some { id := "j", status := Status.Done, content := "hi" ++ "\n" } :=
  ⟨(C5_result_roundtrip wsC5 "j" promptDir "hi" (by decide) (by decide)).1,
   (C5_result_roundtrip wsC5 "j" promptDir "hi" (by decide) (by decide)).2.2.2
     (by decide) (by decide)⟩

/-! ## Claim C3 -/

/-- C3 (amended): `Processor::process` ignores `type.txt` entirely; for
every claimed job it invokes the text path `Runner::run(prompt)` of the
bound runner, whatever the presence or contents of `type.txt`, and the
vision and embedding backends are never consulted: the outcome of
`process` is invariant under replacing them. -/
theorem C3_text_path_only (r : Runner) (g : String → List String → RunOutcome)
    (emb : String → RunOutcome) (jobId : String) (ws : WS) :
    Processor.processBody (some { r with runVision := g, embedText := emb }) jobId ws
      = Processor.processBody (some r) jobId ws := by
  rcases r with ⟨rt, rv, re⟩
  rfl

/-- A runner whose three backend calls return distinct outputs, so the
executed path is observable from the result. -/
def probeRunner : Runner :=
  { runText := fun _ => RunOutcome.ok "TEXT-PATH",
    runVision := fun _ _ => RunOutcome.ok "VISION-PATH",
    embedText := fun _ => RunOutcome.ok "EMBED-PATH" }

/-- A queued job explicitly tagged `type.txt = "embed"`. -/
def embedJobDir : JobDir :=
  { prompt := some "p", typeFile := some "embed", resultTmp := none,
    resultFile := none, errorFile := none, images := [] }

/-- Workspace with the embed-tagged job queued. -/
def wsC3 : WS :=
  { writing := [], ready := [("j", embedJobDir)], processing := [],
    output := [], failed := [] }

/-- The workspace `process` produces for that job. -/
def wsC3out : WS :=
  { writing := [], ready := [], processing := [],
    output := [("j", { prompt := some "p", typeFile := some "embed",
                       resultTmp := none, resultFile := some "TEXT-PATH",
                       errorFile := none, images := [] })],
    failed := [] }

/-- C3 counterexample: a claimed job whose `type.txt` contains "embed"
is still run through the text path: the stored result is the text
backend output "TEXT-PATH", not the embedding backend output
"EMBED-PATH" that the claimed dispatch would produce. -/
theorem C3_counterexample :
    Processor.processBody (some probeRunner) "j" wsC3
      = ProcOutcome.ret ProcessResult.Success wsC3out
    ∧ wsC3out.output.lookup "j"
      = some { prompt := some "p", typeFile := some "embed", resultTmp := none,
               resultFile := some "TEXT-PATH", errorFile := none, images := [] }
    ∧ (("TEXT-PATH" : String) == "EMBED-PATH") = false := by
  refine ⟨by decide, by decide, by decide⟩

/-! ## Claim C6 -/

lemma claim_true_processing_some {ws ws1 : WS} {id : String}
    (h : Processor.moveReadyToProcessing ws id = (true, ws1)) :
    (ws1.processing.lookup id).isSome = true := by
  unfold Processor.moveReadyToProcessing at h
  cases hl : ws.ready.lookup id with
  | none =>
    simp only [hl] at h
    simp only [Prod.mk.injEq] at h
    exact Bool.noConfusion h.1
  | some d =>
    simp only [hl] at h
    by_cases hs : (ws.processing.lookup id).isSome
    · rw [if_pos hs] at h
      simp only [Prod.mk.injEq] at h
      exact Bool.noConfusion h.1
    · rw [if_neg hs] at h
      simp only [Prod.mk.injEq] at h
      rw [← h.2]
      show ((ws.processing ++ [(id, d)]).lookup id).isSome = true
      have hnone : ws.processing.lookup id = none := by
        cases hx : ws.processing.lookup id with
        | none => rfl
        | some y => rw [hx] at hs; exact absurd rfl hs
      rw [lookup_append_none _ hnone, lookup_singleton_self]
      rfl

lemma finalizeFailure_keeps {ws : WS} {id : String} (err : String)
    (h : (ws.processing.lookup id).isSome = true) :
    (((Processor.finalizeFailure ws id err).2).processing.lookup id).isSome = true
    ∨ (((Processor.finalizeFailure ws id err).2).failed.lookup id).isSome = true := by
  unfold Processor.finalizeFailure
  cases hl : ws.processing.lookup id with
  | none => rw [hl] at h; exact Bool.noConfusion h
  | some d =>
    simp only [hl]
    by_cases hf : (ws.failed.lookup id).isSome
    · rw [if_pos hf]
      left
      show ((setEntry ws.processing id _).lookup id).isSome = true
      rw [lookup_setEntry_some _ hl]
      rfl
    · rw [if_neg hf]
      right
      show ((ws.failed ++ [(id, _)]).lookup id).isSome = true
      have hfn : ws.failed.lookup id = none := by
        cases hx : ws.failed.lookup id with
        | none => rfl
        | some y => rw [hx] at hf; exact absurd rfl hf
      rw [lookup_append_none _ hfn, lookup_singleton_self]
      rfl

lemma finalizeSuccess_false_keeps {ws : WS} {id : String} {out : String}
    (h : (ws.processing.lookup id).isSome = true)
    (hfalse : (Processor.finalizeSuccess ws id out).1 = false) :
    (((Processor.finalizeSuccess ws id out).2).processing.lookup id).isSome = true := by
  unfold Processor.finalizeSuccess at hfalse ⊢
  cases hl : ws.processing.lookup id with
  | none => rw [hl] at h; exact Bool.noConfusion h
  | some d =>
    simp only [hl] at hfalse ⊢
    by_cases ho : (ws.output.lookup id).isSome
    · rw [if_pos ho]
      show ((setEntry ws.processing id _).lookup id).isSome = true
      rw [lookup_setEntry_some _ hl]
      rfl
    · rw [if_neg ho] at hfalse
      exact absurd hfalse (by simp)

lemma processBody_systemError {runnerOpt : Option Runner} {jobId : String} {ws ws2 : WS}
    (h : Processor.processBody runnerOpt jobId ws
          = ProcOutcome.ret ProcessResult.SystemError ws2) :
    (ws2.processing.lookup jobId).isSome = true
    ∨ (ws2.failed.lookup jobId).isSome = true := by
  rcases hmv : Processor.moveReadyToProcessing ws jobId with ⟨b, ws1⟩
  cases b
  · simp only [Processor.processBody, hmv] at h
    simp at h
  · simp only [Processor.processBody, hmv] at h
    have hps := claim_true_processing_some hmv
    by_cases hpr : Processor.readPrompt ws1 jobId = ""
    · rw [if_pos hpr] at h
      simp at h
    · rw [if_neg hpr] at h
      cases runnerOpt with
      | none =>
        simp only [] at h
        injection h with hres hws
        rw [← hws]
        exact finalizeFailure_keeps _ hps
      | some r =>
        simp only [] at h
        cases hrun : r.runText (Processor.readPrompt ws1 jobId) with
        | ok out =>
          rcases hfs : Processor.finalizeSuccess ws1 jobId out with ⟨bb, wsf⟩
          cases bb
          · simp only [hrun, hfs] at h
            injection h with hres hws
            rw [← hws]
            left
            have hkeep := finalizeSuccess_false_keeps hps (by rw [hfs])
            rw [hfs] at hkeep
            exact hkeep
          · simp only [hrun, hfs] at h
            simp at h
        | err e =>
          simp only [hrun] at h
          simp at h
        | exn e =>
          simp only [hrun] at h
          injection h with hres hws
          rw [← hws]
          exact finalizeFailure_keeps _ hps

/-- C6 (amended): whenever `process` returns SystemError, the job
directory is in processing/ or in failed/ (never in output/): the
finalize-success failure path leaves it in processing/ as claimed, but
the no-runner path and the catch blocks call `finalizeFailure` first,
which moves the job to failed/, before returning SystemError. -/
theorem C6_systemError_location (slot : RunnerSlot) (jobId : String) (ws ws2 : WS)
    (h : Processor.processSlot slot jobId ws
          = ProcOutcome.ret ProcessResult.SystemError ws2) :
    (ws2.processing.lookup jobId).isSome = true
    ∨ (ws2.failed.lookup jobId).isSome = true := by
  cases slot with
  | absent => exact ProcOutcome.noConfusion h
  | nullRunner =>
    simp only [Processor.processSlot] at h
    exact processBody_systemError h
  | live r =>
    simp only [Processor.processSlot] at h
    exact processBody_systemError h

/-- A runner whose text path throws a C++ exception. -/
def exnRunner : Runner :=
  { runText := fun _ => RunOutcome.exn "boom",
    runVision := fun _ _ => RunOutcome.err "unused",
    embedText := fun _ => RunOutcome.err "unused" }

/-- Workspace with one queued job for the exception scenario. -/
def wsC6 : WS :=
  { writing := [], ready := [("j", promptDir)], processing := [],
    output := [], failed := [] }

/-- The workspace `process` leaves behind when the backend throws. -/
def wsC6out : WS :=
  { writing := [], ready := [], processing := [], output := [],
    failed := [("j", { prompt := some "hello", typeFile := none,
                       resultTmp := none, resultFile := none,
                       errorFile := some "Internal processing error: boom",
                       images := [] })] }

/-- C6 counterexample: when the backend throws, the catch block calls
`finalizeFailure` and then returns SystemError, so the job directory is
in failed/, not in processing/ as the claim states. -/
theorem C6_counterexample :
    Processor.processBody (some exnRunner) "j" wsC6
      = ProcOutcome.ret ProcessResult.SystemError wsC6out
    ∧ wsC6out.processing.lookup "j" = none
    ∧ (wsC6out.failed.lookup "j").isSome = true := by
  refine ⟨by decide, by decide, by decide⟩

/-- Witness for C6: the amended location property at the concrete
exception scenario. -/
theorem C6_witness :
    (wsC6out.processing.lookup "j").isSome = true
    ∨ (wsC6out.failed.lookup "j").isSome = true :=
  C6_systemError_location (RunnerSlot.live exnRunner) "j" wsC6 wsC6out (by decide)

/-! ## Claim C9 -/

/-- Workspace holding a perfectly well-formed queued job, to show the
termination is not caused by the job itself. -/
def wsC9 : WS :=
  { writing := [], ready := [("1700000000000000_42_0", promptDir)],
    processing := [], output := [], failed := [] }

/-- C9: evaluating `process` at the failing input.  With no runner
pre-initialized for the worker (empty `runners_` map),
`getRunnerForWorker` throws `std::runtime_error`; the call sits before
the `try` block of `process`, which is declared `noexcept`, so the
exception can neither be converted to a `ProcessResult` nor escape to
the caller: `std::terminate` aborts the process.  The claim that a
structured error result is returned fails at this input. -/
theorem C9_missing_runner_terminates :
    Processor.process [] "1700000000000000_42_0" 0 wsC9 = ProcOutcome.terminated := rfl

end Nrvna
